import Mathlib

/-!
Verification of `libvips/iofuncs/gate.c` (thread profiling).

The C module is embedded shallowly:

* `VipsThreadGateBlock` mirrors `struct _VipsThreadGateBlock`: the fixed
  1000-slot `gint64 time[VIPS_GATE_SIZE]` array is modelled as a total
  function `Nat → Int` (slots are zero-initialised by `g_new0`), together
  with the fill index `i`.
* A non-null pointer to the current block of a chain, with its `prev`
  linked list of older blocks, is modelled as `BlockChain`: the current
  block plus the list of older blocks (head of `older` = `cur.prev`).
* `GHashTable *gates` is modelled as an insertion-ordered association
  list; `g_hash_table_foreach` traverses it in that (model) order.
* The thread-local slot `vips_thread_profile_key` for the calling thread,
  the globals `vips__thread_profile` (enable flag), `vips__thread_fp`
  (shared stream) and the `g_once` guard are gathered in `GateState`.
  An open `FILE *` is modelled as the list of lines written so far;
  a closed / never-opened stream is `none`.
* Each `fprintf` line becomes one structured `LogLine`; the `%p` pointer
  in the `thread:` header is an address and is not representable, so the
  header carries the thread name only.
* `vips_get_time`'s external `g_get_monotonic_time` branch is outside
  this file's scope; the `#else` fallback (`g_get_current_time`, then
  returning `time.tv_usec`) is embedded as `vips_get_time_fallback`.
  Timestamps handed to the append path are inputs of the operations.
* `g_assert` failure and `vips_error_exit` are the `ProcExit` outcomes of
  `Except`-valued operations.
-/

namespace GateSpec

/-- `#define VIPS_GATE_SIZE (1000)` -/
def VIPS_GATE_SIZE : Nat := 1000

/-- `struct _VipsThreadGateBlock` without its `prev` pointer: the
`time` array (total function, `g_new0`-zeroed) and the fill index `i`. -/
structure VipsThreadGateBlock where
  time : Nat → Int
  i : Nat

/-- A block fresh from `g_new0( VipsThreadGateBlock, 1 )`: all-zero
slots, `i = 0`. -/
def emptyBlock : VipsThreadGateBlock := ⟨fun _ => 0, 0⟩

/-- A non-null `VipsThreadGateBlock *`: the block it points at (`cur`)
and the blocks reachable through `prev` (`older`, newest first). -/
structure BlockChain where
  cur : VipsThreadGateBlock
  older : List VipsThreadGateBlock

/-- The chain a fresh gate direction starts with: one `g_new0` block,
`prev = NULL`. -/
def emptyChain : BlockChain := ⟨emptyBlock, []⟩

/-- All blocks of the chain, current block first, then the `prev` list. -/
def chainBlocks (c : BlockChain) : List VipsThreadGateBlock :=
  c.cur :: c.older

/-- The entries the loop `for( i = block->i - 1; i >= 0; i-- )` visits:
`time[i-1], ..., time[0]` — the block's entries newest-first. -/
def blockEntries (b : VipsThreadGateBlock) : List Int :=
  ((List.range b.i).reverse).map b.time

/-- One output line of the serialization, one constructor per
`fprintf` shape in the C source. -/
inductive LogLine where
  | thread (name : String)
  | gate (name : String)
  | start
  | stop
  | times (ts : List Int)
deriving DecidableEq

/-- `vips_thread_gate_block_save`: one `times` line per block, the
current block first, then recursion into `prev`; each line lists that
block's entries newest-first. -/
def vips_thread_gate_block_save (c : BlockChain) : List LogLine :=
  (chainBlocks c).map (fun b => LogLine.times (blockEntries b))

/-- The timestamps `vips_thread_gate_block_save` emits, in emission
order (all `times` lines concatenated). -/
def serializeTimes (c : BlockChain) : List Int :=
  ((chainBlocks c).map blockEntries).flatten

/-- `vips_thread_gate_block_add`: prepend a `g_new0` block whose `prev`
is the old current block. -/
def vips_thread_gate_block_add (c : BlockChain) : BlockChain :=
  ⟨emptyBlock, c.cur :: c.older⟩

/-- `block->time[block->i++] = t`. -/
def chainWrite (c : BlockChain) (t : Int) : BlockChain :=
  ⟨⟨Function.update c.cur.time c.cur.i t, c.cur.i + 1⟩, c.older⟩

/-- The append step shared by `vips__thread_gate_start` and
`vips__thread_gate_stop`: grow by one empty block if the current block
is full, then write the timestamp at the fill index. -/
def chainAppend (c : BlockChain) (t : Int) : BlockChain :=
  chainWrite (if VIPS_GATE_SIZE ≤ c.cur.i then vips_thread_gate_block_add c else c) t

/-- A sequence of append calls, oldest timestamp first. -/
def chainAppendList (c : BlockChain) (ts : List Int) : BlockChain :=
  ts.foldl chainAppend c

/- ## Helper lemmas on chains -/

theorem blockEntries_emptyBlock : blockEntries emptyBlock = [] := rfl

theorem blockEntries_write (b : VipsThreadGateBlock) (t : Int) :
    blockEntries ⟨Function.update b.time b.i t, b.i + 1⟩ = t :: blockEntries b := by
  show ((List.range (b.i + 1)).reverse).map (Function.update b.time b.i t) = _
  rw [List.range_succ, List.reverse_append, List.map_append]
  have h1 : ([b.i].reverse).map (Function.update b.time b.i t) = [t] := by
    simp [Function.update_same]
  have h2 : ((List.range b.i).reverse).map (Function.update b.time b.i t)
      = ((List.range b.i).reverse).map b.time := by
    refine List.map_congr_left fun x hx => ?_
    have hxlt : x < b.i := List.mem_range.mp (List.mem_reverse.mp hx)
    exact Function.update_noteq (Nat.ne_of_lt hxlt) t b.time
  rw [h1, h2]
  rfl

theorem serializeTimes_chainWrite (c : BlockChain) (t : Int) :
    serializeTimes (chainWrite c t) = t :: serializeTimes c := by
  unfold serializeTimes chainWrite chainBlocks
  simp only [List.map_cons, List.flatten_cons]
  rw [blockEntries_write]
  rfl

theorem serializeTimes_block_add (c : BlockChain) :
    serializeTimes (vips_thread_gate_block_add c) = serializeTimes c := by
  unfold serializeTimes vips_thread_gate_block_add chainBlocks
  simp [blockEntries_emptyBlock]

theorem serializeTimes_chainAppend (c : BlockChain) (t : Int) :
    serializeTimes (chainAppend c t) = t :: serializeTimes c := by
  unfold chainAppend
  by_cases h : VIPS_GATE_SIZE ≤ c.cur.i
  · rw [if_pos h, serializeTimes_chainWrite, serializeTimes_block_add]
  · rw [if_neg h, serializeTimes_chainWrite]

theorem serializeTimes_chainAppendList (c : BlockChain) (ts : List Int) :
    serializeTimes (chainAppendList c ts) = ts.reverse ++ serializeTimes c := by
  induction ts generalizing c with
  | nil => simp [chainAppendList]
  | cons t ts ih =>
      have hstep : chainAppendList c (t :: ts) = chainAppendList (chainAppend c t) ts := rfl
      rw [hstep, ih, serializeTimes_chainAppend]
      simp

theorem serializeTimes_emptyChain : serializeTimes emptyChain = [] := rfl

/- ## Claim C1 -/

/-- Claim C1: for every sequence of append calls with strictly increasing
timestamps `t1 < t2 < ... < tN` into a fresh Gate Block Chain,
`vips_thread_gate_block_save`'s emitted timestamp sequence
(`serializeTimes`) is exactly `tN, ..., t1` — the full reverse of the
append order, for every number of blocks the appends produced. -/
theorem serialize_reverse_chronological (ts : List Int)
    (hmono : ts.Pairwise (· < ·)) :
    serializeTimes (chainAppendList emptyChain ts) = ts.reverse := by
  rw [serializeTimes_chainAppendList, serializeTimes_emptyChain, List.append_nil]

/-- Witness for C1 at the concrete input `[1, 2, 3]`. -/
theorem serialize_reverse_chronological_witness :
    serializeTimes (chainAppendList emptyChain [1, 2, 3]) = [3, 2, 1] := by
  have h := serialize_reverse_chronological [1, 2, 3] (by decide)
  simpa using h

/- ## Claim C2 -/

theorem chainAppend_notFull (c : BlockChain) (t : Int) (h : c.cur.i < VIPS_GATE_SIZE) :
    chainAppend c t = ⟨⟨Function.update c.cur.time c.cur.i t, c.cur.i + 1⟩, c.older⟩ := by
  unfold chainAppend
  rw [if_neg (Nat.not_le_of_lt h)]
  rfl

theorem chainAppend_full (c : BlockChain) (t : Int) (h : VIPS_GATE_SIZE ≤ c.cur.i) :
    chainAppend c t = ⟨⟨Function.update emptyBlock.time 0 t, 1⟩, c.cur :: c.older⟩ := by
  unfold chainAppend
  rw [if_pos h]
  rfl

theorem chainAppendList_small (ts : List Int) (c : BlockChain) (holder : c.older = [])
    (hle : c.cur.i + ts.length ≤ VIPS_GATE_SIZE) :
    (chainAppendList c ts).older = [] ∧
    (chainAppendList c ts).cur.i = c.cur.i + ts.length := by
  induction ts generalizing c with
  | nil => simp [chainAppendList, holder]
  | cons t ts ih =>
      have hlt : c.cur.i < VIPS_GATE_SIZE := by
        simp only [List.length_cons] at hle
        omega
      have hstep : chainAppendList c (t :: ts) = chainAppendList (chainAppend c t) ts := rfl
      rw [hstep, chainAppend_notFull c t hlt]
      have h := ih ⟨⟨Function.update c.cur.time c.cur.i t, c.cur.i + 1⟩, c.older⟩
        holder (by
          show c.cur.i + 1 + ts.length ≤ VIPS_GATE_SIZE
          simp only [List.length_cons] at hle
          omega)
      refine ⟨h.1, ?_⟩
      rw [h.2]
      show c.cur.i + 1 + ts.length = c.cur.i + (t :: ts).length
      simp only [List.length_cons]
      omega

/-- Claim C2: appending `VIPS_GATE_SIZE + 1 = 1001` strictly increasing
timestamps to one fresh Gate Block Chain yields exactly two blocks — the
current block with fill count 1, the older block with fill count
`VIPS_GATE_SIZE = 1000` — and the emitted serialization is the newest
entry first, then the 1000 older entries in descending order. -/
theorem chunk_growth (ts : List Int) (hlen : ts.length = VIPS_GATE_SIZE + 1)
    (hmono : ts.Pairwise (· < ·)) :
    VIPS_GATE_SIZE = 1000 ∧
    (chainBlocks (chainAppendList emptyChain ts)).length = 2 ∧
    (chainAppendList emptyChain ts).cur.i = 1 ∧
    (∀ b ∈ (chainAppendList emptyChain ts).older, b.i = VIPS_GATE_SIZE) ∧
    serializeTimes (chainAppendList emptyChain ts) = ts.reverse ∧
    (ts.reverse).Pairwise (· > ·) := by
  obtain ⟨t, ht⟩ : ∃ t, ts.drop VIPS_GATE_SIZE = [t] := by
    apply List.length_eq_one.mp
    rw [List.length_drop, hlen]
    omega
  have hsplit : ts = ts.take VIPS_GATE_SIZE ++ [t] := by
    conv_lhs => rw [← List.take_append_drop VIPS_GATE_SIZE ts]
    rw [ht]
  have htake : (ts.take VIPS_GATE_SIZE).length = VIPS_GATE_SIZE := by
    rw [List.length_take, hlen]
    omega
  have hsmall := chainAppendList_small (ts.take VIPS_GATE_SIZE) emptyChain rfl
    (by rw [htake]; rfl)
  have hfull : VIPS_GATE_SIZE ≤ (chainAppendList emptyChain (ts.take VIPS_GATE_SIZE)).cur.i := by
    rw [hsmall.2, htake]
    rfl
  have hlist : chainAppendList emptyChain ts
      = chainAppend (chainAppendList emptyChain (ts.take VIPS_GATE_SIZE)) t := by
    conv_lhs => rw [hsplit]
    unfold chainAppendList
    rw [List.foldl_append]
    rfl
  have happ := chainAppend_full (chainAppendList emptyChain (ts.take VIPS_GATE_SIZE)) t hfull
  refine ⟨rfl, ?_, ?_, ?_, ?_, ?_⟩
  · rw [hlist, happ]
    simp [chainBlocks, hsmall.1]
  · rw [hlist, happ]
  · intro b hb
    rw [hlist, happ] at hb
    simp only [hsmall.1, List.mem_singleton] at hb
    rw [hb, hsmall.2, htake]
    show 0 + VIPS_GATE_SIZE = VIPS_GATE_SIZE
    omega
  · rw [serializeTimes_chainAppendList, serializeTimes_emptyChain, List.append_nil]
  · rw [List.pairwise_reverse]
    exact hmono

/-- Witness for C2 at the concrete input `0, 1, ..., 1000`. -/
theorem chunk_growth_witness :
    VIPS_GATE_SIZE = 1000 ∧
    (chainBlocks (chainAppendList emptyChain
        ((List.range (VIPS_GATE_SIZE + 1)).map Int.ofNat))).length = 2 ∧
    (chainAppendList emptyChain
        ((List.range (VIPS_GATE_SIZE + 1)).map Int.ofNat)).cur.i = 1 ∧
    (∀ b ∈ (chainAppendList emptyChain
        ((List.range (VIPS_GATE_SIZE + 1)).map Int.ofNat)).older, b.i = VIPS_GATE_SIZE) ∧
    serializeTimes (chainAppendList emptyChain
        ((List.range (VIPS_GATE_SIZE + 1)).map Int.ofNat))
      = ((List.range (VIPS_GATE_SIZE + 1)).map Int.ofNat).reverse ∧
    (((List.range (VIPS_GATE_SIZE + 1)).map Int.ofNat).reverse).Pairwise (· > ·) :=
  chunk_growth ((List.range (VIPS_GATE_SIZE + 1)).map Int.ofNat)
    (by rw [List.length_map, List.length_range])
    (by
      rw [List.pairwise_map]
      exact (List.pairwise_lt_range _).imp fun h => Int.ofNat_lt.mpr h)

/- ## Claim C6 -/

/-- Every block of the chain has fill count at most `VIPS_GATE_SIZE`
(the lower bound 0 is inherent in `Nat`). -/
def ChainInv (c : BlockChain) : Prop :=
  ∀ b ∈ chainBlocks c, b.i ≤ VIPS_GATE_SIZE

theorem chainInv_emptyChain : ChainInv emptyChain := by
  intro b hb
  simp only [chainBlocks, emptyChain, List.mem_singleton] at hb
  rw [hb]
  show 0 ≤ VIPS_GATE_SIZE
  omega

theorem chainInv_chainAppend (c : BlockChain) (t : Int) (h : ChainInv c) :
    ChainInv (chainAppend c t) := by
  intro b hb
  by_cases hfull : VIPS_GATE_SIZE ≤ c.cur.i
  · rw [chainAppend_full c t hfull] at hb
    simp only [chainBlocks, List.mem_cons] at hb
    rcases hb with hb | hb | hb
    · rw [hb]
      show 1 ≤ VIPS_GATE_SIZE
      norm_num [VIPS_GATE_SIZE]
    · rw [hb]
      exact h c.cur (by simp [chainBlocks])
    · exact h b (by simp [chainBlocks, hb])
  · rw [chainAppend_notFull c t (Nat.lt_of_not_le hfull)] at hb
    simp only [chainBlocks, List.mem_cons] at hb
    rcases hb with hb | hb
    · rw [hb]
      show c.cur.i + 1 ≤ VIPS_GATE_SIZE
      omega
    · exact h b (by simp [chainBlocks, hb])

theorem chainInv_chainAppendList (c : BlockChain) (ts : List Int) (h : ChainInv c) :
    ChainInv (chainAppendList c ts) := by
  induction ts generalizing c with
  | nil => exact h
  | cons t ts ih => exact ih (chainAppend c t) (chainInv_chainAppend c t h)

/-- Claim C6: on every chain reachable by a sequence of appends from a
fresh chain, every block's fill count lies in `[0, VIPS_GATE_SIZE]`;
an append writes into the current block (at index `cur.i`, strictly
below capacity) exactly when it is not full, leaving all older blocks
untouched; and when the current block is full the chain grows only by
prepending one fresh empty block (written at index 0), the old blocks
kept unchanged and in order. -/
theorem gate_block_invariant (ts : List Int) (t : Int) (c : BlockChain)
    (hc : c = chainAppendList emptyChain ts) :
    (∀ b ∈ chainBlocks c, b.i ≤ VIPS_GATE_SIZE) ∧
    (c.cur.i < VIPS_GATE_SIZE →
      chainAppend c t = ⟨⟨Function.update c.cur.time c.cur.i t, c.cur.i + 1⟩, c.older⟩) ∧
    (VIPS_GATE_SIZE ≤ c.cur.i →
      chainAppend c t = ⟨⟨Function.update emptyBlock.time 0 t, 1⟩, c.cur :: c.older⟩) := by
  refine ⟨?_, fun h => chainAppend_notFull c t h, fun h => chainAppend_full c t h⟩
  rw [hc]
  exact chainInv_chainAppendList emptyChain ts chainInv_emptyChain

/-- Witness for C6 at the one-append chain and timestamp 9. -/
theorem gate_block_invariant_witness :
    (∀ b ∈ chainBlocks (chainAppendList emptyChain [7]), b.i ≤ VIPS_GATE_SIZE) ∧
    ((chainAppendList emptyChain [7]).cur.i < VIPS_GATE_SIZE →
      chainAppend (chainAppendList emptyChain [7]) 9 =
        ⟨⟨Function.update (chainAppendList emptyChain [7]).cur.time
            (chainAppendList emptyChain [7]).cur.i 9,
          (chainAppendList emptyChain [7]).cur.i + 1⟩,
          (chainAppendList emptyChain [7]).older⟩) ∧
    (VIPS_GATE_SIZE ≤ (chainAppendList emptyChain [7]).cur.i →
      chainAppend (chainAppendList emptyChain [7]) 9 =
        ⟨⟨Function.update emptyBlock.time 0 9, 1⟩,
          (chainAppendList emptyChain [7]).cur :: (chainAppendList emptyChain [7]).older⟩) :=
  gate_block_invariant [7] 9 (chainAppendList emptyChain [7]) rfl

/- ## Thread-profile state model -/

/-- `struct _VipsThreadGate`: name plus the two chains. -/
structure VipsThreadGate where
  name : String
  start : BlockChain
  stop : BlockChain

/-- `vips_thread_gate_new`: two `g_new0` blocks, one per direction. -/
def vips_thread_gate_new (gate_name : String) : VipsThreadGate :=
  ⟨gate_name, emptyChain, emptyChain⟩

/-- `struct _VipsThreadProfile`: thread name plus the gate registry
(`GHashTable *gates`, modelled as an insertion-ordered association
list; the `GThread *thread` field is unused by the module's logic). -/
structure VipsThreadProfile where
  name : String
  gates : List (String × VipsThreadGate)

/-- The module's global and thread-local mutable state, seen from one
calling thread: the thread's private slot, the enable flag
`vips__thread_profile`, the shared stream `vips__thread_fp` (`some` =
open, carrying the lines written so far; `none` = closed or never
opened), and whether the `g_once` one-time initialization has run. -/
structure GateState where
  profile : Option VipsThreadProfile
  vips__thread_profile : Bool
  thread_fp : Option (List LogLine)
  initDone : Bool

/-- `vips_thread_profile_get`: read the calling thread's private slot. -/
def vips_thread_profile_get (s : GateState) : Option VipsThreadProfile :=
  s.profile

/-- `g_hash_table_lookup( profile->gates, gate_name )`. -/
def gatesLookup (gates : List (String × VipsThreadGate)) (gate_name : String) :
    Option VipsThreadGate :=
  (gates.find? (fun e => e.1 == gate_name)).map (fun e => e.2)

/-- `vips__thread_gate_start`: no-op without an attached profile; else
resolve or create the gate, then append the timestamp to its `start`
chain (growing it by one block first if the current block is full). -/
def vips__thread_gate_start (gate_name : String) (t : Int) (s : GateState) : GateState :=
  match vips_thread_profile_get s with
  | none => s
  | some profile =>
      let gates :=
        match gatesLookup profile.gates gate_name with
        | some _ => profile.gates
        | none => profile.gates ++ [(gate_name, vips_thread_gate_new gate_name)]
      let gates := gates.map (fun e =>
        if e.1 == gate_name then (e.1, ⟨e.2.name, chainAppend e.2.start t, e.2.stop⟩) else e)
      { s with profile := some ⟨profile.name, gates⟩ }

/-- `vips__thread_gate_stop`: same as `vips__thread_gate_start` but
appending to the gate's `stop` chain. -/
def vips__thread_gate_stop (gate_name : String) (t : Int) (s : GateState) : GateState :=
  match vips_thread_profile_get s with
  | none => s
  | some profile =>
      let gates :=
        match gatesLookup profile.gates gate_name with
        | some _ => profile.gates
        | none => profile.gates ++ [(gate_name, vips_thread_gate_new gate_name)]
      let gates := gates.map (fun e =>
        if e.1 == gate_name then (e.1, ⟨e.2.name, e.2.start, chainAppend e.2.stop t⟩) else e)
      { s with profile := some ⟨profile.name, gates⟩ }

/-- `vips_thread_profile_save_gate`: the `gate:` header, the `start:`
marker and the start chain's lines, then the `stop:` marker and the
stop chain's lines. -/
def vips_thread_profile_save_gate (gate : VipsThreadGate) : List LogLine :=
  LogLine.gate gate.name :: LogLine.start ::
    (vips_thread_gate_block_save gate.start ++
      LogLine.stop :: vips_thread_gate_block_save gate.stop)

/-- `vips_thread_profile_save`: the `thread:` header followed by every
gate's section, in registry traversal order. -/
def vips_thread_profile_save (profile : VipsThreadProfile) : List LogLine :=
  LogLine.thread profile.name ::
    (profile.gates.map (fun e => vips_thread_profile_save_gate e.2)).flatten

/-- `vips_thread_profile_free`, run at teardown of the calling thread's
profile: append the serialized dump to the stream when (and only when)
`vips__thread_fp` is non-null, then release the profile. -/
def vips_thread_profile_free (s : GateState) : GateState :=
  match s.profile with
  | none => s
  | some profile =>
      { s with
          profile := none
          thread_fp := s.thread_fp.map (fun out => out ++ vips_thread_profile_save profile) }

/-- `vips__thread_profile_stop`: `VIPS_FREEF( fclose, vips__thread_fp )`
guarded by the enable flag. The boolean records whether `fclose` was
actually invoked (it is skipped when the pointer is already null). -/
def vips__thread_profile_stop (s : GateState) : GateState × Bool :=
  if s.vips__thread_profile then
    match s.thread_fp with
    | some _ => ({ s with thread_fp := none }, true)
    | none => (s, false)
  else
    (s, false)

/-- The abnormal terminations the module can cause: `vips_error_exit`
and a failed `g_assert`. -/
inductive ProcExit where
  | errorExit (msg : String)
  | assertionFailed
deriving DecidableEq

/-- `vips__thread_profile_init`. The slot-creation for
`vips_thread_profile_key` is absorbed into the state model; `o` is the
outcome of the external `vips__file_open_write( "vips-profile.txt",
TRUE )` ("w" mode: truncate-and-create, hence the fresh stream starts
with no content). -/
def vips__thread_profile_init (o : Option Unit) (s : GateState) :
    Except ProcExit GateState :=
  if s.vips__thread_profile then
    match o with
    | none => .error (.errorExit "unable to create profile log")
    | some _ => .ok { s with thread_fp := some [] }
  else
    .ok s

/-- `g_once( &once, vips__thread_profile_init, NULL )`: run the
initializer only if it has not run yet. -/
def gOnce (o : Option Unit) (s : GateState) : Except ProcExit GateState :=
  if s.initDone then
    .ok s
  else
    match vips__thread_profile_init o s with
    | .error e => .error e
    | .ok s' => .ok { s' with initDone := true }

/-- `vips__thread_profile_attach`: one-time init, the
`g_assert( !g_private_get( vips_thread_profile_key ) )`, then install a
fresh profile with an empty registry. -/
def vips__thread_profile_attach (thread_name : String) (o : Option Unit)
    (s : GateState) : Except ProcExit GateState :=
  match gOnce o s with
  | .error e => .error e
  | .ok s' =>
      if s'.profile.isSome then
        .error .assertionFailed
      else
        .ok { s' with profile := some ⟨thread_name, []⟩ }

/- ## Claim C3 -/

/-- Claim C3: with no Thread Profile attached on the calling thread —
in particular when attach never ran because profiling is disabled —
`vips__thread_gate_start` and `vips__thread_gate_stop` return the state
unchanged: nothing is recorded, nothing is written to any stream. -/
theorem gate_noop_when_unattached (gate_name : String) (t t' : Int) (s : GateState)
    (h : vips_thread_profile_get s = none) :
    vips__thread_gate_start gate_name t s = s ∧
    vips__thread_gate_stop gate_name t' s = s := by
  unfold vips__thread_gate_start vips__thread_gate_stop
  rw [h]
  exact ⟨rfl, rfl⟩

/-- Witness for C3 at a concrete unattached state. -/
theorem gate_noop_when_unattached_witness :
    vips__thread_gate_start "work" 5 ⟨none, false, none, false⟩
      = (⟨none, false, none, false⟩ : GateState) ∧
    vips__thread_gate_stop "work" 6 ⟨none, false, none, false⟩
      = (⟨none, false, none, false⟩ : GateState) :=
  gate_noop_when_unattached "work" 5 6 ⟨none, false, none, false⟩ rfl

/- ## Claim C5 -/

/-- Claim C5: teardown of an attached profile serializes it to the
stream exactly when the stream is open, and in both cases releases the
profile (registry, gates and blocks) — nothing else of the state
changes. -/
theorem teardown_free_spec (s : GateState) (p : VipsThreadProfile)
    (hprof : s.profile = some p) :
    (vips_thread_profile_free s).profile = none ∧
    (s.thread_fp = none → vips_thread_profile_free s = { s with profile := none }) ∧
    (∀ out, s.thread_fp = some out →
      vips_thread_profile_free s =
        { s with profile := none,
                 thread_fp := some (out ++ vips_thread_profile_save p) }) := by
  unfold vips_thread_profile_free
  rw [hprof]
  refine ⟨rfl, fun hfp => ?_, fun out hfp => ?_⟩
  · simp [hfp]
  · simp [hfp]

/-- Witness for C5 at a concrete attached state with an open stream. -/
theorem teardown_free_spec_witness :
    (vips_thread_profile_free ⟨some ⟨"w", []⟩, true, some [], true⟩).profile = none ∧
    ((⟨some ⟨"w", []⟩, true, some [], true⟩ : GateState).thread_fp = none →
      vips_thread_profile_free ⟨some ⟨"w", []⟩, true, some [], true⟩ =
        { (⟨some ⟨"w", []⟩, true, some [], true⟩ : GateState) with profile := none }) ∧
    (∀ out, (⟨some ⟨"w", []⟩, true, some [], true⟩ : GateState).thread_fp = some out →
      vips_thread_profile_free ⟨some ⟨"w", []⟩, true, some [], true⟩ =
        { (⟨some ⟨"w", []⟩, true, some [], true⟩ : GateState) with
            profile := none,
            thread_fp := some (out ++ vips_thread_profile_save ⟨"w", []⟩) }) :=
  teardown_free_spec ⟨some ⟨"w", []⟩, true, some [], true⟩ ⟨"w", []⟩ rfl

/- ## Claim C7 -/

theorem gOnce_preserves_profile (o : Option Unit) (s s' : GateState)
    (h : gOnce o s = .ok s') : s'.profile = s.profile := by
  obtain ⟨prof, flag, fp, init⟩ := s
  cases init <;> cases flag <;> cases o <;>
    simp [gOnce, vips__thread_profile_init] at h <;>
    rw [← h]

/-- Claim C7: whenever the one-time initialization completes, attach
on a thread that already holds a profile fails the
`g_assert( !g_private_get(...) )`, while attach on a thread with no
profile succeeds and installs a fresh profile with an empty registry. -/
theorem attach_assert_spec (thread_name : String) (o : Option Unit)
    (s s' : GateState) (hinit : gOnce o s = .ok s') :
    (s.profile ≠ none →
      vips__thread_profile_attach thread_name o s = .error .assertionFailed) ∧
    (s.profile = none →
      vips__thread_profile_attach thread_name o s =
        .ok { s' with profile := some ⟨thread_name, []⟩ }) := by
  have hp := gOnce_preserves_profile o s s' hinit
  unfold vips__thread_profile_attach
  rw [hinit]
  constructor
  · intro h
    have hs : s'.profile.isSome = true := by
      rw [hp]
      exact Option.ne_none_iff_isSome.mp h
    simp [hs]
  · intro h
    have hs : s'.profile.isSome = false := by
      rw [hp, h]
      rfl
    simp [hs]

/-- Witness for C7: attach succeeds on the unattached state
`⟨none, false, none, true⟩` (one-time init already done). -/
theorem attach_assert_spec_witness :
    ((⟨none, false, none, true⟩ : GateState).profile ≠ none →
      vips__thread_profile_attach "worker" none ⟨none, false, none, true⟩
        = .error .assertionFailed) ∧
    ((⟨none, false, none, true⟩ : GateState).profile = none →
      vips__thread_profile_attach "worker" none ⟨none, false, none, true⟩
        = .ok { (⟨none, false, none, true⟩ : GateState) with
                  profile := some ⟨"worker", []⟩ }) :=
  attach_assert_spec "worker" none ⟨none, false, none, true⟩ ⟨none, false, none, true⟩ rfl

/- ## Claim C10 -/

/-- Claim C10: teardown serialization is gated solely on the stream
pointer — with the stream closed (or never opened) an attached thread's
teardown writes nothing anywhere yet still releases the profile;
`vips__thread_profile_stop` closes the stream only when the enable flag
is set, and `fclose` runs at most once even across repeated stop
calls. -/
theorem stop_close_and_discard (s : GateState) (p : VipsThreadProfile)
    (hprof : s.profile = some p) :
    (s.thread_fp = none → vips_thread_profile_free s = { s with profile := none }) ∧
    (s.vips__thread_profile = false → vips__thread_profile_stop s = (s, false)) ∧
    ((vips__thread_profile_stop (vips__thread_profile_stop s).1).2 = false) ∧
    (s.vips__thread_profile = true → (vips__thread_profile_stop s).1.thread_fp = none) := by
  obtain ⟨prof, flag, fp, init⟩ := s
  have hprof' : prof = some p := hprof
  refine ⟨fun hfp => ?_, fun hflag => ?_, ?_, fun hflag => ?_⟩
  · have hfp' : fp = none := hfp
    subst hfp'
    simp [vips_thread_profile_free, hprof']
  · have hflag' : flag = false := hflag
    subst hflag'
    simp [vips__thread_profile_stop]
  · cases flag <;> cases fp <;> simp [vips__thread_profile_stop]
  · have hflag' : flag = true := hflag
    subst hflag'
    cases fp <;> simp [vips__thread_profile_stop]

/-- Witness for C10 at a concrete attached state with the flag set and
the stream already closed. -/
theorem stop_close_and_discard_witness :
    ((⟨some ⟨"w", []⟩, true, none, true⟩ : GateState).thread_fp = none →
      vips_thread_profile_free ⟨some ⟨"w", []⟩, true, none, true⟩ =
        { (⟨some ⟨"w", []⟩, true, none, true⟩ : GateState) with profile := none }) ∧
    ((⟨some ⟨"w", []⟩, true, none, true⟩ : GateState).vips__thread_profile = false →
      vips__thread_profile_stop ⟨some ⟨"w", []⟩, true, none, true⟩
        = (⟨some ⟨"w", []⟩, true, none, true⟩, false)) ∧
    ((vips__thread_profile_stop
        (vips__thread_profile_stop ⟨some ⟨"w", []⟩, true, none, true⟩).1).2 = false) ∧
    ((⟨some ⟨"w", []⟩, true, none, true⟩ : GateState).vips__thread_profile = true →
      (vips__thread_profile_stop ⟨some ⟨"w", []⟩, true, none, true⟩).1.thread_fp = none) :=
  stop_close_and_discard ⟨some ⟨"w", []⟩, true, none, true⟩ ⟨"w", []⟩ rfl

/- ## Claim C8 -/

/-- Claim C8: from a fresh process state the one-time initialization
runs exactly once — once `initDone` holds, `gOnce` never reruns the
body; on its one run, with the enable flag set it installs the freshly
truncated (empty) stream, and a failed open is escalated to
`vips_error_exit`; with the flag unset no stream is opened and every
later teardown serialization is skipped. -/
theorem init_once_spec (o o2 : Option Unit) (s : GateState)
    (hfresh : s.initDone = false) (hfp : s.thread_fp = none) :
    (s.vips__thread_profile = true → o = none →
      gOnce o s = .error (.errorExit "unable to create profile log")) ∧
    (s.vips__thread_profile = true → ∀ u, o = some u →
      gOnce o s = .ok { s with thread_fp := some [], initDone := true }) ∧
    (s.vips__thread_profile = false →
      gOnce o s = .ok { s with initDone := true } ∧
      ({ s with initDone := true } : GateState).thread_fp = none) ∧
    (∀ s2 : GateState, s2.initDone = true → gOnce o2 s2 = .ok s2) ∧
    (∀ s2 : GateState, s2.thread_fp = none →
      (vips_thread_profile_free s2).thread_fp = none) := by
  obtain ⟨prof, flag, fp, init⟩ := s
  have hinit' : init = false := hfresh
  subst hinit'
  have hfp' : fp = none := hfp
  subst hfp'
  refine ⟨fun hflag ho => ?_, fun hflag u ho => ?_, fun hflag => ?_, fun s2 h2 => ?_,
    fun s2 h2 => ?_⟩
  · have hflag' : flag = true := hflag
    subst hflag' ho
    simp [gOnce, vips__thread_profile_init]
  · have hflag' : flag = true := hflag
    subst hflag' ho
    simp [gOnce, vips__thread_profile_init]
  · have hflag' : flag = false := hflag
    subst hflag'
    exact ⟨by simp [gOnce, vips__thread_profile_init], rfl⟩
  · obtain ⟨prof2, flag2, fp2, init2⟩ := s2
    have h2' : init2 = true := h2
    subst h2'
    simp [gOnce]
  · obtain ⟨prof2, flag2, fp2, init2⟩ := s2
    have h2' : fp2 = none := h2
    subst h2'
    cases prof2 <;> simp [vips_thread_profile_free]

/-- Witness for C8 at the fresh state with the enable flag set and a
successful open. -/
theorem init_once_spec_witness :
    ((⟨none, true, none, false⟩ : GateState).vips__thread_profile = true →
      some () = none →
      gOnce (some ()) ⟨none, true, none, false⟩
        = .error (.errorExit "unable to create profile log")) ∧
    ((⟨none, true, none, false⟩ : GateState).vips__thread_profile = true →
      ∀ u, some () = some u →
      gOnce (some ()) ⟨none, true, none, false⟩
        = .ok { (⟨none, true, none, false⟩ : GateState) with
                  thread_fp := some [], initDone := true }) ∧
    ((⟨none, true, none, false⟩ : GateState).vips__thread_profile = false →
      gOnce (some ()) ⟨none, true, none, false⟩
        = .ok { (⟨none, true, none, false⟩ : GateState) with initDone := true } ∧
      ({ (⟨none, true, none, false⟩ : GateState) with initDone := true }
          : GateState).thread_fp = none) ∧
    (∀ s2 : GateState, s2.initDone = true → gOnce none s2 = .ok s2) ∧
    (∀ s2 : GateState, s2.thread_fp = none →
      (vips_thread_profile_free s2).thread_fp = none) :=
  init_once_spec (some ()) none ⟨none, true, none, false⟩ rfl rfl

/- ## Claim C4 -/

theorem chainAppend_emptyChain (t : Int) :
    chainAppend emptyChain t = ⟨⟨Function.update emptyBlock.time 0 t, 1⟩, []⟩ := by
  rw [chainAppend_notFull emptyChain t (by decide)]
  rfl

theorem blockEntries_one (t : Int) :
    blockEntries ⟨Function.update emptyBlock.time 0 t, 1⟩ = [t] :=
  blockEntries_write emptyBlock t

/-- Claim C4: when an attached thread tears down while the stream is
open, the stream gains exactly one `thread:` header followed, for each
gate of the registry in traversal order (each once), by its `gate:`
line, the `start:` marker with the enter-chain lines and the `stop:`
marker with the leave-chain lines; in particular one enter and one
leave on a single gate G yield a `gate: G` section whose `start:` and
`stop:` each carry exactly one timestamp. -/
theorem teardown_dump (s : GateState) (p : VipsThreadProfile) (out : List LogLine)
    (hprof : s.profile = some p) (hfp : s.thread_fp = some out) :
    ((vips_thread_profile_free s).thread_fp =
      some (out ++ LogLine.thread p.name ::
        (p.gates.map (fun e =>
          LogLine.gate e.2.name :: LogLine.start ::
            ((chainBlocks e.2.start).map (fun b => LogLine.times (blockEntries b)) ++
              LogLine.stop ::
                (chainBlocks e.2.stop).map (fun b => LogLine.times (blockEntries b))))).flatten)) ∧
    (∀ (nm G : String) (t1 t2 : Int) (flag d : Bool) (out' : List LogLine),
      (vips_thread_profile_free (vips__thread_gate_stop G t2 (vips__thread_gate_start G t1
          ⟨some ⟨nm, []⟩, flag, some out', d⟩))).thread_fp =
        some (out' ++ [LogLine.thread nm, LogLine.gate G, LogLine.start,
          LogLine.times [t1], LogLine.stop, LogLine.times [t2]])) := by
  constructor
  · unfold vips_thread_profile_free
    rw [hprof, hfp]
    simp [vips_thread_profile_save, vips_thread_profile_save_gate,
      vips_thread_gate_block_save]
  · intro nm G t1 t2 flag d out'
    simp [vips__thread_gate_start, vips__thread_gate_stop, vips_thread_profile_get,
      gatesLookup, vips_thread_gate_new, vips_thread_profile_free,
      vips_thread_profile_save, vips_thread_profile_save_gate,
      vips_thread_gate_block_save, chainBlocks, chainAppend_emptyChain,
      blockEntries_one, List.find?]

/-- Witness for C4 at a one-gate profile and open stream. -/
theorem teardown_dump_witness :
    ((vips_thread_profile_free ⟨some ⟨"w", [("G", vips_thread_gate_new "G")]⟩,
        true, some [], true⟩).thread_fp =
      some (([] : List LogLine) ++ LogLine.thread "w" ::
        (([("G", vips_thread_gate_new "G")]).map (fun e =>
          LogLine.gate e.2.name :: LogLine.start ::
            ((chainBlocks e.2.start).map (fun b => LogLine.times (blockEntries b)) ++
              LogLine.stop ::
                (chainBlocks e.2.stop).map (fun b => LogLine.times (blockEntries b))))).flatten)) ∧
    (∀ (nm G : String) (t1 t2 : Int) (flag d : Bool) (out' : List LogLine),
      (vips_thread_profile_free (vips__thread_gate_stop G t2 (vips__thread_gate_start G t1
          ⟨some ⟨nm, []⟩, flag, some out', d⟩))).thread_fp =
        some (out' ++ [LogLine.thread nm, LogLine.gate G, LogLine.start,
          LogLine.times [t1], LogLine.stop, LogLine.times [t2]])) :=
  teardown_dump ⟨some ⟨"w", [("G", vips_thread_gate_new "G")]⟩, true, some [], true⟩
    ⟨"w", [("G", vips_thread_gate_new "G")]⟩ [] rfl rfl

/- ## Claim C9 -/

/-- The `GTimeVal` a `g_get_current_time` call fills: wall-clock
seconds and the microseconds within the current second
(`0 ≤ tv_usec < 1000000`). -/
structure GTimeVal where
  tv_sec : Int
  tv_usec : Int
deriving DecidableEq

/-- The `#else` branch of `vips_get_time` (builds without
`HAVE_MONOTONIC_TIME`): `g_get_current_time( &time )` followed by
`return( (gint64) time.tv_usec )` — only the sub-second microseconds
field is returned, the seconds are discarded. -/
def vips_get_time_fallback (time : GTimeVal) : Int :=
  time.tv_usec

/-- The elapsed-microseconds value the claim describes for the same
wall-clock instant. -/
def elapsedMicroseconds (time : GTimeVal) : Int :=
  time.tv_sec * 1000000 + time.tv_usec

/-- Claim C9 (code bug in the fallback build): across a second boundary
real elapsed time increases — `(0 s, 999999 µs)` to `(1 s, 1 µs)` —
yet `vips_get_time` returns `999999` and then `1`: the returned values
decrease, so the clock is neither an elapsed-microsecond count nor
monotonically non-decreasing. -/
theorem get_time_fallback_not_monotonic :
    elapsedMicroseconds ⟨0, 999999⟩ < elapsedMicroseconds ⟨1, 1⟩ ∧
    vips_get_time_fallback ⟨0, 999999⟩ = 999999 ∧
    vips_get_time_fallback ⟨1, 1⟩ = 1 ∧
    vips_get_time_fallback ⟨1, 1⟩ < vips_get_time_fallback ⟨0, 999999⟩ := by
  refine ⟨by decide, rfl, rfl, by decide⟩

end GateSpec
